import Mathlib

/-!
Verification of the chunking and aggregation core of `src/PDFread.py`
(`PDFAssistant._split_text`, `PDFAssistant.generate_summary`,
`PDFAssistant.answer_question`).

Modelling conventions:
* A Python `str` is modelled as a `List Char` (`Str`); `len` is `List.length`,
  slicing `s[k:]` is `List.drop k s`, `+` is `List.append`.
* `str.strip()` is modelled by `pyStrip`, dropping the ASCII whitespace
  characters recognised by Python (space, tab, newline, carriage return,
  vertical tab, form feed) from both ends.
* Python exceptions are modelled with `Except PyExc`; a `try/except`
  block becomes a `match` on the `Except` value (`tryCatchTimeout` for
  `except TimeoutException`, `tryCatchAll` for `except Exception`).
* The external collaborators (the nltk sentence tokenizer, the T5
  summarisation backend `_summarize_text`'s model call, the DistilBERT QA
  backend, and the two-decimal float rendering of the confidence) are
  parameters of the functions; everything that is in the source file itself
  (guards, the chunking loop, the skip thresholds, the score normalisation
  `min(1.0, max(0.0, confidence / 10.0))`, the best-answer fold, the
  messages, the assignment to `self.summary`) is translated literally.
* Streamlit progress/status/warning/error calls are purely observational
  (never affect control flow or data) and are not modelled.
-/

/-- A Python string, as a list of characters. -/
abbrev Str := List Char

/-- The ASCII whitespace characters stripped by Python's `str.strip()` and
recognised by `str.isspace()`. -/
def isPySpace (c : Char) : Bool :=
  c = ' ' || c = '\t' || c = '\n' || c = '\r' || c = Char.ofNat 11 || c = Char.ofNat 12

/-- Left part of Python `str.strip()`: drop leading whitespace. -/
def pyLStrip (l : Str) : Str := l.dropWhile isPySpace

/-- Right part of Python `str.strip()`: drop trailing whitespace. -/
def pyRStrip (l : Str) : Str := (l.reverse.dropWhile isPySpace).reverse

/-- Python `str.strip()`: drop whitespace from both ends. -/
def pyStrip (l : Str) : Str := pyRStrip (pyLStrip l)

/-- Python `str.isspace()`: true iff the string is non-empty and all
characters are whitespace. -/
def pyIsSpace (l : Str) : Bool := !l.isEmpty && l.all isPySpace

/-- A Python exception, as far as the aggregators distinguish them:
`TimeoutException` (raised by `timeout_handler`, module line 33) versus any
other exception. -/
inductive PyExc where
  | timeoutExc
  | otherExc
deriving DecidableEq

/-- Python `except TimeoutException: handler` around `body`
(lines 148-153 and 232-240 of `src/PDFread.py`): only the timeout
exception is handled, others propagate. -/
def tryCatchTimeout (body handler : Except PyExc α) : Except PyExc α :=
  match body with
  | .error .timeoutExc => handler
  | r => r

/-- Python `except Exception: handler` around `body`
(lines 144-161 and 228-248 of `src/PDFread.py`): every exception is handled. -/
def tryCatchAll (body handler : Except PyExc α) : Except PyExc α :=
  match body with
  | .error _ => handler
  | r => r

/-- The sentence loop of `_split_text` (`src/PDFread.py` lines 274-291).
`current` is `current_chunk`.  For each sentence: if
`len(current_chunk) + len(sentence) <= max_length` then
`current_chunk += " " + sentence`; otherwise the stripped buffer is emitted
when non-empty, and the new buffer is
`current_chunk[max(0, len(current_chunk) - overlap):] + " " + sentence`.
After the loop the stripped buffer is emitted when non-empty. -/
def splitTextLoop (maxLength overlap : Nat) : List Str → Str → List Str
  | [], current =>
      if pyStrip current = [] then [] else [pyStrip current]
  | s :: rest, current =>
      if current.length + s.length ≤ maxLength then
        splitTextLoop maxLength overlap rest (current ++ ' ' :: s)
      else
        (if pyStrip current = [] then [] else [pyStrip current]) ++
          splitTextLoop maxLength overlap rest
            (current.drop (current.length - overlap) ++ ' ' :: s)

/-- The chunker applied to an already-tokenized sentence sequence, starting
from the empty buffer (`current_chunk = ""`, line 275). -/
def chunkSentences (sentences : List Str) (maxLength overlap : Nat) : List Str :=
  splitTextLoop maxLength overlap sentences []

/-- The fallback sentence splitter of `_split_text` (line 272):
`[s + "." for s in text.split(".") if s]`. -/
def fallbackSentences (text : Str) : List Str :=
  (text.splitOn '.').filterMap fun s => if s = [] then none else some (s ++ ['.'])

/-- `PDFAssistant._split_text` (lines 261-291).  `tokenize` models the
external `nltk.sent_tokenize`, which may raise (line 267-272); on failure the
period fallback is used.  An empty or whitespace-only text yields `[]`
(line 263). -/
def split_text (tokenize : Str → Except PyExc (List Str)) (text : Str)
    (maxLength overlap : Nat) : List Str :=
  if text = [] ∨ pyIsSpace text = true then []
  else
    chunkSentences
      (match tokenize text with
       | .ok ss => ss
       | .error _ => fallbackSentences text)
      maxLength overlap

/-- The session state owned by `PDFAssistant` that the aggregators read and
write: `self.pdf_text` and `self.summary` (lines 52-53). -/
structure AssistantState where
  pdf_text : Str
  summary : Str
deriving DecidableEq

/-- Message at line 122 / 202. -/
def msgLoadFirst : Str := "Please load a PDF first.".toList

/-- Message at line 129. -/
def msgNoMeaningful : Str := "Unable to extract meaningful text from the PDF.".toList

/-- Message at line 165. -/
def msgCouldNotSummarize : Str :=
  "Could not generate a summary. Try a different document or check document quality.".toList

/-- Message at line 172. -/
def msgSummaryError : Str := "An error occurred while generating the summary.".toList

/-- Message at line 205. -/
def msgValidQuestion : Str := "Please enter a valid question.".toList

/-- Message at line 215. -/
def msgNoMeaningfulQA : Str :=
  "Unable to extract meaningful text from the PDF to answer questions.".toList

/-- Message at line 254 (with the apostrophe written as a character code). -/
def msgNoAnswer : Str :=
  "I couldn".toList ++ Char.ofNat 39 :: "t find an answer to that question in the document.".toList

/-- Message at line 259. -/
def msgQAError : Str := "An error occurred while processing your question.".toList

/-- The literal part of the answer rendering at line 256:
`f"{best_answer} (Confidence: {highest_score:.2f})"`. -/
def msgConfOpen : Str := " (Confidence: ".toList

/-- One iteration of the summarisation loop (lines 135-161): chunks shorter
than 100 characters are skipped (line 140); the backend call runs inside
`try ... except TimeoutException ... finally` nested in `try ... except
Exception`, so any failure leaves the accumulated summaries unchanged and the
loop continues. -/
def summarizeIter (backend : Str → Except PyExc Str) (acc : List Str) (chunk : Str) :
    Except PyExc (List Str) :=
  if chunk.length < 100 then .ok acc
  else
    tryCatchAll
      (tryCatchTimeout
        (match backend chunk with
         | .ok s => .ok (acc ++ [s])
         | .error e => .error e)
        (.ok acc))
      (.ok acc)

/-- The summarisation loop over all chunks (lines 135-161), with an exception
raised by an iteration propagating out (none can, as proved below). -/
def summariesLoop (backend : Str → Except PyExc Str) :
    List Str → List Str → Except PyExc (List Str)
  | [], acc => .ok acc
  | c :: cs, acc =>
      match summarizeIter backend acc c with
      | .ok acc' => summariesLoop backend cs acc'
      | .error e => .error e

/-- The body of `generate_summary` inside the outer `try` (lines 124-169). -/
def generateSummaryBody (tokenize : Str → Except PyExc (List Str))
    (backend : Str → Except PyExc Str) (st : AssistantState) :
    Except PyExc (Str × AssistantState) :=
  if split_text tokenize st.pdf_text 500 50 = [] then .ok (msgNoMeaningful, st)
  else
    match summariesLoop backend (split_text tokenize st.pdf_text 500 50) [] with
    | .error e => .error e
    | .ok summaries =>
        if summaries = [] then .ok (msgCouldNotSummarize, st)
        else
          .ok (List.intercalate [' '] summaries,
            { st with summary := List.intercalate [' '] summaries })

/-- `PDFAssistant.generate_summary` (lines 119-172).  Returns the produced
message together with the state after the call (the source mutates
`self.summary` on the success path, line 167).  `backend` models
`_summarize_text`. -/
def generate_summary (tokenize : Str → Except PyExc (List Str))
    (backend : Str → Except PyExc Str) (st : AssistantState) :
    Str × AssistantState :=
  if st.pdf_text = [] then (msgLoadFirst, st)
  else
    match generateSummaryBody tokenize backend st with
    | .ok r => r
    | .error _ => (msgSummaryError, st)

/-- The confidence normalisation of `_answer_question_from_context`
(line 195): `min(1.0, max(0.0, confidence / 10.0))`. -/
def normalizeConf (raw : ℚ) : ℚ := min 1 (max 0 (raw / 10))

/-- `_answer_question_from_context` (lines 174-197): the external model call
(`qaRaw`, producing the answer span and the raw confidence
`(max start_logits + max end_logits) / 2`) followed by the in-source
normalisation of the score. -/
def answerFromContext (qaRaw : Str → Str → Except PyExc (Str × ℚ))
    (question context : Str) : Except PyExc (Str × ℚ) :=
  match qaRaw question context with
  | .ok p => .ok (p.1, normalizeConf p.2)
  | .error e => .error e

/-- One iteration of the answer loop (lines 223-248): the QA call runs under
the same nested `try/except` structure; on success the running best pair is
replaced exactly when `score > highest_score and len(answer.strip()) > 0`
(line 235); on any failure the best pair is kept and the loop continues. -/
def answerIter (qb : Str → Except PyExc (Str × ℚ)) (best : Str × ℚ) (chunk : Str) :
    Except PyExc (Str × ℚ) :=
  tryCatchAll
    (tryCatchTimeout
      (match qb chunk with
       | .ok p => .ok (if p.2 > best.2 ∧ pyStrip p.1 ≠ [] then p else best)
       | .error e => .error e)
      (.ok best))
    (.ok best)

/-- The answer loop over all chunks (lines 223-248). -/
def answersLoop (qb : Str → Except PyExc (Str × ℚ)) :
    List Str → Str × ℚ → Except PyExc (Str × ℚ)
  | [], best => .ok best
  | c :: cs, best =>
      match answerIter qb best c with
      | .ok best' => answersLoop qb cs best'
      | .error e => .error e

/-- The body of `answer_question` inside the outer `try` (lines 207-256). -/
def answerBody (tokenize : Str → Except PyExc (List Str))
    (qaRaw : Str → Str → Except PyExc (Str × ℚ)) (fmtConf : ℚ → Str)
    (pdf_text question : Str) : Except PyExc Str :=
  if split_text tokenize pdf_text 1000 100 = [] then .ok msgNoMeaningfulQA
  else
    match answersLoop (answerFromContext qaRaw question)
        (split_text tokenize pdf_text 1000 100) ([], 0) with
    | .error e => .error e
    | .ok best =>
        if best.1 = [] then .ok msgNoAnswer
        else .ok (best.1 ++ msgConfOpen ++ fmtConf best.2 ++ [')'])

/-- `PDFAssistant.answer_question` (lines 199-259).  `best = ("", 0)` is the
initial pair of lines 217-218; `fmtConf` models the external two-decimal
float rendering `{highest_score:.2f}`. -/
def answer_question (tokenize : Str → Except PyExc (List Str))
    (qaRaw : Str → Str → Except PyExc (Str × ℚ)) (fmtConf : ℚ → Str)
    (pdf_text question : Str) : Str :=
  if pdf_text = [] then msgLoadFirst
  else if pyStrip question = [] then msgValidQuestion
  else
    match answerBody tokenize qaRaw fmtConf pdf_text question with
    | .ok r => r
    | .error _ => msgQAError

/-- Specification-side description of the collected summaries: the backend
results, in chunk order, of the chunks of length at least 100 whose backend
call succeeded.  Compared against the source-side loop below. -/
def pureSummaries (backend : Str → Except PyExc Str) (chunks : List Str) : List Str :=
  chunks.filterMap fun c =>
    if c.length < 100 then none
    else
      match backend c with
      | .ok s => some s
      | .error _ => none

/-- Specification-side single step of the best-answer fold: keep the better
of the running pair and a successful chunk result, where a result only wins
with a strictly greater score and a non-empty trimmed answer. -/
def answerStep (qb : Str → Except PyExc (Str × ℚ)) (best : Str × ℚ) (chunk : Str) :
    Str × ℚ :=
  match qb chunk with
  | .ok p => if p.2 > best.2 ∧ pyStrip p.1 ≠ [] then p else best
  | .error _ => best

/-- Specification-side best-answer fold over all chunks from `("", 0)`. -/
def bestFold (qb : Str → Except PyExc (Str × ℚ)) (chunks : List Str) : Str × ℚ :=
  chunks.foldl (answerStep qb) ([], 0)

/-- The overlap relation between adjacent chunks: some non-empty run of at
most `o` characters is both a suffix of the first chunk and a prefix of the
second. -/
def overlapLink (o : Nat) (c₁ c₂ : Str) : Prop :=
  ∃ t : Str, t ≠ [] ∧ t.length ≤ o ∧ t <:+ c₁ ∧ t <+: c₂

/-- A sentence that is non-empty and contains no whitespace character. -/
def goodSent (s : Str) : Prop := s ≠ [] ∧ ∀ c ∈ s, isPySpace c = false

instance decGoodSent (s : Str) : Decidable (goodSent s) :=
  inferInstanceAs (Decidable (s ≠ [] ∧ ∀ c ∈ s, isPySpace c = false))

/-- A buffer whose last character exists and is not whitespace. -/
def endsOk (l : Str) : Prop := ∃ c t, l.reverse = c :: t ∧ isPySpace c = false

/-- A sentence tokenizer returning a fixed sentence list (used to instantiate
theorems at concrete inputs). -/
def tokOf (ss : List Str) : Str → Except PyExc (List Str) := fun _ => .ok ss

/-- A summarisation backend returning a fixed result. -/
def sbOf (r : Except PyExc Str) : Str → Except PyExc Str := fun _ => r

/-- A trivial confidence renderer. -/
def fmt0 : ℚ → Str := fun _ => []

/-- The three sentences of the concrete QA scenario: long runs of `a` so the
1000-character window of `answer_question` produces three chunks. -/
def sentsC1 : List Str :=
  [List.replicate 1001 'a', List.replicate 1001 'a', List.replicate 1050 'a']

/-- The three chunks `split_text` produces from `sentsC1` (computed below). -/
def chunkA : Str := List.replicate 1001 'a'

/-- Second chunk of the concrete QA scenario. -/
def chunkB : Str := List.replicate 100 'a' ++ ' ' :: List.replicate 1001 'a'

/-- Third chunk of the concrete QA scenario. -/
def chunkC : Str := List.replicate 100 'a' ++ ' ' :: List.replicate 1050 'a'

/-- A QA backend giving the three chunks of the concrete scenario raw scores
3, 5 and 9 (normalised: 0.3, 0.5, 0.9), distinguished by chunk length, with
non-empty answers. -/
def qaRawC1 : Str → Str → Except PyExc (Str × ℚ) := fun _ c =>
  if c.length = 1102 then .ok ("middle answer".toList, 9)
  else if c.length = 1001 then .ok ("first answer".toList, 3)
  else .ok ("last answer".toList, 5)

/-- A QA backend whose answers are always empty, with a high raw score. -/
def qaRawEmpty : Str → Str → Except PyExc (Str × ℚ) := fun _ _ => .ok ([], 50)

/-- A QA backend with non-empty answers and raw score 0 (normalised 0). -/
def qaRawZero : Str → Str → Except PyExc (Str × ℚ) := fun _ _ =>
  .ok ("an answer".toList, 0)

/-! ### Basic facts about the Python string operations -/

theorem dropWhile_head_false {α : Type} {p : α → Bool} {l : List α} {c : α}
    {r : List α} (h : l.dropWhile p = c :: r) : p c = false := by
  induction l with
  | nil => simp [List.dropWhile] at h
  | cons x xs ih =>
      rw [List.dropWhile_cons] at h
      by_cases hx : p x = true
      · rw [if_pos hx] at h; exact ih h
      · rw [if_neg hx] at h
        injection h with h1 _
        rw [← h1]; simpa using hx

theorem dropWhile_append_ne_nil {α : Type} {p : α → Bool} {xs ys : List α}
    (h : xs.dropWhile p ≠ []) :
    (xs ++ ys).dropWhile p = xs.dropWhile p ++ ys := by
  induction xs with
  | nil => simp [List.dropWhile] at h
  | cons x xs ih =>
      rw [List.dropWhile_cons] at h
      rw [List.cons_append, List.dropWhile_cons, List.dropWhile_cons]
      by_cases hx : p x = true
      · rw [if_pos hx] at h
        rw [if_pos hx, if_pos hx]
        exact ih h
      · rw [if_neg hx, if_neg hx, List.cons_append]

theorem suffix_dropWhile_of_head {α : Type} {p : α → Bool} {c : α} {t l : List α}
    (hs : (c :: t) <:+ l) (hc : p c = false) : (c :: t) <:+ l.dropWhile p := by
  obtain ⟨pre, rfl⟩ := hs
  induction pre with
  | nil => simp [List.dropWhile_cons, hc]
  | cons x pre ih =>
      rw [List.cons_append, List.dropWhile_cons]
      by_cases hx : p x = true
      · rw [if_pos hx]; exact ih
      · rw [if_neg hx]
        exact ⟨x :: pre, rfl⟩

theorem endsOk_of_suffix {t l : Str} (hs : t <:+ l) (ht : t ≠ []) (h : endsOk l) :
    endsOk t := by
  obtain ⟨pre, rfl⟩ := hs
  obtain ⟨c, r, hrev, hc⟩ := h
  obtain ⟨c', t', hrev'⟩ : ∃ c' t', t.reverse = c' :: t' := by
    cases ht' : t.reverse with
    | nil => exact absurd (List.reverse_eq_nil_iff.mp ht') ht
    | cons a b => exact ⟨a, b, rfl⟩
  refine ⟨c', t', hrev', ?_⟩
  rw [List.reverse_append, hrev', List.cons_append] at hrev
  injection hrev with h1 _
  rw [h1]; exact hc

theorem endsOk_append_sent {l s : Str} (hgood : goodSent s) :
    endsOk (l ++ ' ' :: s) := by
  obtain ⟨hne, hall⟩ := hgood
  obtain ⟨c, t, hrev⟩ : ∃ c t, s.reverse = c :: t := by
    cases h : s.reverse with
    | nil => exact absurd (List.reverse_eq_nil_iff.mp h) hne
    | cons a b => exact ⟨a, b, rfl⟩
  refine ⟨c, t ++ ' ' :: l.reverse, ?_, ?_⟩
  · rw [List.reverse_append, List.reverse_cons, hrev]
    simp
  · exact hall c (by rw [← List.mem_reverse, hrev]; exact List.mem_cons_self _ _)

theorem pyLStrip_ne_nil {l : Str} (h : endsOk l) : pyLStrip l ≠ [] := by
  obtain ⟨c, t, hrev, hc⟩ := h
  intro hnil
  rw [pyLStrip] at hnil
  have hall : ∀ x ∈ l, isPySpace x = true := List.dropWhile_eq_nil_iff.mp hnil
  have hcl : c ∈ l := by rw [← List.mem_reverse, hrev]; exact List.mem_cons_self _ _
  rw [hall c hcl] at hc
  exact Bool.noConfusion hc

theorem pyRStrip_eq_self {l : Str} (h : endsOk l) : pyRStrip l = l := by
  obtain ⟨c, t, hrev, hc⟩ := h
  rw [pyRStrip, hrev, List.dropWhile_cons, if_neg (by simp [hc]), ← hrev,
    List.reverse_reverse]

theorem pyStrip_eq_pyLStrip {l : Str} (h : endsOk l) : pyStrip l = pyLStrip l := by
  have hsuf : pyLStrip l <:+ l := List.dropWhile_suffix _
  rw [pyStrip]
  exact pyRStrip_eq_self (endsOk_of_suffix hsuf (pyLStrip_ne_nil h) h)

theorem pyStrip_ne_nil {l : Str} (h : endsOk l) : pyStrip l ≠ [] := by
  rw [pyStrip_eq_pyLStrip h]; exact pyLStrip_ne_nil h

theorem length_pyStrip_le (l : Str) : (pyStrip l).length ≤ l.length := by
  have h1 : (pyLStrip l).length ≤ l.length := (List.dropWhile_suffix _).length_le
  have h2 : (pyStrip l).length ≤ (pyLStrip l).length := by
    rw [pyStrip, pyRStrip]
    calc ((pyLStrip l).reverse.dropWhile isPySpace).reverse.length
        = ((pyLStrip l).reverse.dropWhile isPySpace).length := List.length_reverse _
      _ ≤ (pyLStrip l).reverse.length := (List.dropWhile_suffix _).length_le
      _ = (pyLStrip l).length := List.length_reverse _
  exact le_trans h2 h1

/-! ### Equations for the chunking loop -/

theorem splitTextLoop_nil (m o : Nat) (cur : Str) :
    splitTextLoop m o [] cur = if pyStrip cur = [] then [] else [pyStrip cur] := rfl

theorem splitTextLoop_cons (m o : Nat) (s : Str) (rest : List Str) (cur : Str) :
    splitTextLoop m o (s :: rest) cur =
      if cur.length + s.length ≤ m then
        splitTextLoop m o rest (cur ++ ' ' :: s)
      else
        (if pyStrip cur = [] then [] else [pyStrip cur]) ++
          splitTextLoop m o rest (cur.drop (cur.length - o) ++ ' ' :: s) := rfl

theorem splitTextLoop_length_le {m o L : Nat} :
    ∀ (sentences : List Str) (cur : Str), (∀ s ∈ sentences, s.length ≤ L) →
      cur.length ≤ max (m + 1) (o + 1 + L) →
      ∀ c ∈ splitTextLoop m o sentences cur, c.length ≤ max (m + 1) (o + 1 + L) := by
  intro sentences
  induction sentences with
  | nil =>
      intro cur _ hcur c hc
      rw [splitTextLoop_nil] at hc
      by_cases h : pyStrip cur = [] <;> simp [h] at hc
      rw [hc]; exact le_trans (length_pyStrip_le _) hcur
  | cons s rest ih =>
      intro cur hs hcur c hc
      rw [splitTextLoop_cons] at hc
      by_cases hfit : cur.length + s.length ≤ m
      · rw [if_pos hfit] at hc
        refine ih _ (fun t ht => hs t (List.mem_cons_of_mem _ ht)) ?_ c hc
        have : (cur ++ ' ' :: s).length = cur.length + s.length + 1 := by
          simp [List.length_append]; omega
        rw [this]
        exact le_trans (by omega) (le_max_left (m + 1) (o + 1 + L))
      · rw [if_neg hfit] at hc
        rcases List.mem_append.mp hc with h1 | h2
        · by_cases h : pyStrip cur = [] <;> simp [h] at h1
          rw [h1]; exact le_trans (length_pyStrip_le _) hcur
        · refine ih _ (fun t ht => hs t (List.mem_cons_of_mem _ ht)) ?_ c h2
          have hsL : s.length ≤ L := hs s (List.mem_cons_self _ _)
          have hlen : (cur.drop (cur.length - o) ++ ' ' :: s).length ≤ o + 1 + L := by
            simp [List.length_append, List.length_drop]; omega
          exact le_trans hlen (le_max_right (m + 1) (o + 1 + L))

/-! ### Claim C2 -/

/-- Claim C2 as stated is false: with `max_length = 10`, `overlap = 5`
(`0 < 10`, `5 < 10`) and the sentences `"aaaaaaaaa"`, `"bbbbbbbbb"` — both of
length 9, so no single sentence exceeds `max_length` — the chunker emits the
chunk `"aaaaa bbbbbbbbb"` of length 15 > 10: an overlap-seeded buffer can
exceed `max_length` even though no sentence does. -/
theorem chunk_length_exceeds_max_counterexample :
    (0 < 10 ∧ 5 < 10) ∧
    (∀ s ∈ [List.replicate 9 'a', List.replicate 9 'b'], s.length ≤ 10) ∧
    ∃ c ∈ chunkSentences [List.replicate 9 'a', List.replicate 9 'b'] 10 5,
      10 < c.length := by decide

/-- Claim C2 (amended): a chunk need not be bounded by `max_length` alone;
the provable bound is `max (max_length + 1) (overlap + 1 + L)` where `L`
bounds the sentence lengths.  In particular, when every sentence has length
at most `max_length`, every chunk has length at most
`max_length + overlap + 1`; a sentence longer than `max_length` is still
never split, and contributes a chunk of length at most
`overlap + 1 +` its own length. -/
theorem chunk_length_bounded_amended (sentences : List Str)
    (maxLength overlap L : Nat) (hm : 0 < maxLength) (ho : overlap < maxLength)
    (hL : ∀ s ∈ sentences, s.length ≤ L) :
    ∀ c ∈ chunkSentences sentences maxLength overlap,
      c.length ≤ max (maxLength + 1) (overlap + 1 + L) := by
  have h0 : ([] : Str).length ≤ max (maxLength + 1) (overlap + 1 + L) := by simp
  exact splitTextLoop_length_le sentences [] hL h0

/-- Witness for the amended C2 bound at a concrete input: `max_length = 10`,
`overlap = 5`, sentences of length at most 9, so chunks are bounded by
`max 11 15 = 15`. -/
theorem chunk_length_bounded_amended_witness :
    (0 < 10 ∧ 5 < 10 ∧
      ∀ s ∈ [List.replicate 9 'a', List.replicate 9 'b'], s.length ≤ 9) ∧
    ∀ c ∈ chunkSentences [List.replicate 9 'a', List.replicate 9 'b'] 10 5,
      c.length ≤ max (10 + 1) (5 + 1 + 9) :=
  ⟨⟨by decide, by decide, by decide⟩,
    chunk_length_bounded_amended [List.replicate 9 'a', List.replicate 9 'b']
      10 5 9 (by decide) (by decide) (by decide)⟩

/-! ### Claim C3: the overlap carried between adjacent chunks -/

theorem headShape (maxL o : Nat) :
    ∀ (sentences : List Str), (∀ s ∈ sentences, goodSent s) →
    ∀ cur : Str, endsOk cur →
    ∃ ext rest', (ext = [] ∨ ∃ e, ext = ' ' :: e) ∧ endsOk (cur ++ ext) ∧
      splitTextLoop maxL o sentences cur = pyStrip (cur ++ ext) :: rest' := by
  intro sentences
  induction sentences with
  | nil =>
      intro _ cur hcur
      refine ⟨[], [], Or.inl rfl, by simpa using hcur, ?_⟩
      rw [splitTextLoop_nil, if_neg (pyStrip_ne_nil hcur), List.append_nil]
  | cons s rest ih =>
      intro hgood cur hcur
      have hs : goodSent s := hgood s (List.mem_cons_self _ _)
      have hrest : ∀ u ∈ rest, goodSent u := fun u hu => hgood u (List.mem_cons_of_mem _ hu)
      rw [splitTextLoop_cons]
      by_cases hfit : cur.length + s.length ≤ maxL
      · rw [if_pos hfit]
        obtain ⟨ext₂, rest', hshape, hends, heq⟩ :=
          ih hrest (cur ++ ' ' :: s) (endsOk_append_sent hs)
        have hassoc : cur ++ ' ' :: (s ++ ext₂) = (cur ++ ' ' :: s) ++ ext₂ := by simp
        refine ⟨' ' :: (s ++ ext₂), rest', Or.inr ⟨s ++ ext₂, rfl⟩, ?_, ?_⟩
        · rw [hassoc]; exact hends
        · rw [hassoc]; exact heq
      · rw [if_neg hfit, if_neg (pyStrip_ne_nil hcur)]
        refine ⟨[], splitTextLoop maxL o rest (cur.drop (cur.length - o) ++ ' ' :: s),
          Or.inl rfl, by simpa using hcur, ?_⟩
        rw [List.append_nil, List.singleton_append]

theorem chain_aux (maxL o : Nat) (ho : 0 < o) :
    ∀ (sentences : List Str), (∀ s ∈ sentences, goodSent s) →
    ∀ cur : Str, cur = [] ∨ endsOk cur →
    List.Chain' (overlapLink o) (splitTextLoop maxL o sentences cur) := by
  intro sentences
  induction sentences with
  | nil =>
      intro _ cur _
      rw [splitTextLoop_nil]
      by_cases h : pyStrip cur = []
      · rw [if_pos h]; exact List.chain'_nil
      · rw [if_neg h]; exact List.chain'_singleton _
  | cons s rest ih =>
      intro hgood cur hcur
      have hs : goodSent s := hgood s (List.mem_cons_self _ _)
      have hrest : ∀ u ∈ rest, goodSent u := fun u hu => hgood u (List.mem_cons_of_mem _ hu)
      rw [splitTextLoop_cons]
      by_cases hfit : cur.length + s.length ≤ maxL
      · rw [if_pos hfit]
        exact ih hrest _ (Or.inr (endsOk_append_sent hs))
      · rw [if_neg hfit]
        rcases hcur with rfl | hends
        · have h0 : pyStrip ([] : Str) = [] := rfl
          rw [h0, if_pos rfl, List.nil_append, List.drop_nil, List.nil_append]
          exact ih hrest _ (Or.inr (endsOk_append_sent (l := []) hs))
        · rw [if_neg (pyStrip_ne_nil hends)]
          have hcurne : cur ≠ [] := by
            intro h
            obtain ⟨c, r, hx, -⟩ := hends
            rw [h] at hx
            simp at hx
          have htlen : (cur.drop (cur.length - o)).length = cur.length - (cur.length - o) := by
            rw [List.length_drop]
          have htpos : 0 < (cur.drop (cur.length - o)).length := by
            have hc : 0 < cur.length := List.length_pos.mpr hcurne
            rw [htlen]; omega
          have htne : cur.drop (cur.length - o) ≠ [] := List.length_pos.mp htpos
          have htsuf : cur.drop (cur.length - o) <:+ cur := List.drop_suffix _ _
          have htends : endsOk (cur.drop (cur.length - o)) :=
            endsOk_of_suffix htsuf htne hends
          have hseedEnds : endsOk (cur.drop (cur.length - o) ++ ' ' :: s) :=
            endsOk_append_sent hs
          obtain ⟨ext, rest', hshape, hendsExt, heq⟩ :=
            headShape maxL o rest hrest (cur.drop (cur.length - o) ++ ' ' :: s) hseedEnds
          rw [heq, List.singleton_append]
          refine List.chain'_cons.mpr ⟨?_, ?_⟩
          · have ht'ne : pyLStrip (cur.drop (cur.length - o)) ≠ [] := pyLStrip_ne_nil htends
            obtain ⟨c0, t'', hT''⟩ :
                ∃ c0 t'', pyLStrip (cur.drop (cur.length - o)) = c0 :: t'' := by
              cases h : pyLStrip (cur.drop (cur.length - o)) with
              | nil => exact absurd h ht'ne
              | cons a b => exact ⟨a, b, rfl⟩
            have hc0 : isPySpace c0 = false := by
              apply dropWhile_head_false (p := isPySpace) (l := cur.drop (cur.length - o))
              rw [← hT'']; rfl
            refine ⟨pyLStrip (cur.drop (cur.length - o)), ht'ne, ?_, ?_, ?_⟩
            · have h1 : (pyLStrip (cur.drop (cur.length - o))).length ≤
                  (cur.drop (cur.length - o)).length :=
                (List.dropWhile_suffix _).length_le
              rw [htlen] at h1
              omega
            · rw [pyStrip_eq_pyLStrip hends]
              have h2 : pyLStrip (cur.drop (cur.length - o)) <:+ cur :=
                (List.dropWhile_suffix _).trans htsuf
              rw [hT''] at h2 ⊢
              exact suffix_dropWhile_of_head h2 hc0
            · rw [pyStrip_eq_pyLStrip hendsExt]
              have hassoc : (cur.drop (cur.length - o) ++ ' ' :: s) ++ ext =
                  cur.drop (cur.length - o) ++ (' ' :: (s ++ ext)) := by simp
              rw [hassoc]
              have h3 : (cur.drop (cur.length - o)).dropWhile isPySpace ≠ [] := ht'ne
              calc pyLStrip (cur.drop (cur.length - o))
                  <+: pyLStrip (cur.drop (cur.length - o)) ++ (' ' :: (s ++ ext)) :=
                    ⟨' ' :: (s ++ ext), rfl⟩
                _ = pyLStrip (cur.drop (cur.length - o) ++ (' ' :: (s ++ ext))) := by
                    rw [pyLStrip, pyLStrip, dropWhile_append_ne_nil h3]
          · rw [← heq]
            exact ih hrest _ (Or.inr hseedEnds)

/-- Claim C3 as stated is false: with `overlap = 3` and the whitespace-free
sentences `"ab"`, `"cd"`, `"efgh"` under `max_length = 6`, the chunker
produces `["ab cd", "cd efgh"]`, and the trailing 3 characters of the first
chunk — `" cd"` — are not a prefix of the second chunk (the emitted chunks are
stripped, so the space of the carried-over overlap disappears from the front
of the next chunk). -/
theorem overlap_prefix_counterexample :
    chunkSentences ["ab".toList, "cd".toList, "efgh".toList] 6 3 =
      ["ab cd".toList, "cd efgh".toList] ∧
    ¬ ("ab cd".toList.drop ("ab cd".toList.length - 3) <+: "cd efgh".toList) := by
  decide

/-- Claim C3 (amended): for overlap `o > 0` and sentences that are non-empty
and contain no whitespace characters, every pair of adjacent chunks shares a
non-empty run of at most `o` characters that is a suffix of the earlier chunk
and a prefix of the later one (the overlap seed survives the final `strip()`
up to its leading whitespace). -/
theorem overlap_chain_amended (sentences : List Str) (maxLength o : Nat)
    (ho : 0 < o) (hgood : ∀ s ∈ sentences, goodSent s) :
    List.Chain' (overlapLink o) (chunkSentences sentences maxLength o) :=
  chain_aux maxLength o ho sentences hgood [] (Or.inl rfl)

/-- Witness for the amended C3 at the concrete counterexample input: the
adjacent chunks `"ab cd"` and `"cd efgh"` do share the run `"cd"` of length
`2 ≤ 3`. -/
theorem overlap_chain_amended_witness :
    (0 < 3 ∧ ∀ s ∈ ["ab".toList, "cd".toList, "efgh".toList], goodSent s) ∧
    List.Chain' (overlapLink 3)
      (chunkSentences ["ab".toList, "cd".toList, "efgh".toList] 6 3) :=
  ⟨⟨by decide, by decide⟩,
    overlap_chain_amended ["ab".toList, "cd".toList, "efgh".toList] 6 3
      (by decide) (by decide)⟩

/-! ### The per-chunk loops never propagate failures -/

theorem summarizeIter_eq (backend : Str → Except PyExc Str) (acc : List Str) (c : Str) :
    summarizeIter backend acc c =
      .ok (acc ++ (if c.length < 100 then []
        else match backend c with
        | .ok s => [s]
        | .error _ => [])) := by
  rw [summarizeIter]
  by_cases hlen : c.length < 100
  · rw [if_pos hlen, if_pos hlen, List.append_nil]
  · rw [if_neg hlen, if_neg hlen]
    cases backend c with
    | ok s => rfl
    | error e =>
        cases e
        · show Except.ok acc = Except.ok (acc ++ [])
          rw [List.append_nil]
        · show Except.ok acc = Except.ok (acc ++ [])
          rw [List.append_nil]

theorem pureSummaries_cons (backend : Str → Except PyExc Str) (c : Str) (cs : List Str) :
    pureSummaries backend (c :: cs) =
      (if c.length < 100 then []
        else match backend c with
        | .ok s => [s]
        | .error _ => []) ++ pureSummaries backend cs := by
  rw [pureSummaries, List.filterMap_cons]
  by_cases hlen : c.length < 100
  · rw [if_pos hlen, if_pos hlen, List.nil_append]; rfl
  · rw [if_neg hlen, if_neg hlen]
    cases backend c with
    | ok s => rfl
    | error e => rfl

theorem summariesLoop_eq (backend : Str → Except PyExc Str) :
    ∀ (cs acc : List Str),
      summariesLoop backend cs acc = .ok (acc ++ pureSummaries backend cs) := by
  intro cs
  induction cs with
  | nil => intro acc; simp [summariesLoop, pureSummaries]
  | cons c cs ih =>
      intro acc
      show (match summarizeIter backend acc c with
        | .ok acc' => summariesLoop backend cs acc'
        | .error e => .error e) = _
      rw [summarizeIter_eq]
      show summariesLoop backend cs _ = _
      rw [ih, pureSummaries_cons, List.append_assoc]

theorem answerIter_eq (qb : Str → Except PyExc (Str × ℚ)) (best : Str × ℚ) (c : Str) :
    answerIter qb best c = .ok (answerStep qb best c) := by
  rw [answerIter, answerStep]
  cases qb c with
  | ok p => rfl
  | error e => cases e <;> rfl

theorem answersLoop_eq (qb : Str → Except PyExc (Str × ℚ)) :
    ∀ (cs : List Str) (best : Str × ℚ),
      answersLoop qb cs best = .ok (cs.foldl (answerStep qb) best) := by
  intro cs
  induction cs with
  | nil => intro best; rfl
  | cons c cs ih =>
      intro best
      show (match answerIter qb best c with
        | .ok b => answersLoop qb cs b
        | .error e => .error e) = _
      rw [answerIter_eq]
      show answersLoop qb cs _ = _
      rw [ih, List.foldl_cons]

/-! ### Behaviour of the best-answer fold -/

theorem foldl_answerStep_keep {qb : Str → Except PyExc (Str × ℚ)} {s : ℚ} :
    ∀ {cs : List Str} {a : Str},
      (∀ c ∈ cs, ∀ a' t, qb c = .ok (a', t) → pyStrip a' ≠ [] → t ≤ s) →
      cs.foldl (answerStep qb) (a, s) = (a, s) := by
  intro cs
  induction cs with
  | nil => intro a _; rfl
  | cons c cs ih =>
      intro a h
      rw [List.foldl_cons]
      have hstep : answerStep qb (a, s) c = (a, s) := by
        rw [answerStep]
        cases hb : qb c with
        | ok p =>
            show (if p.2 > (a, s).2 ∧ pyStrip p.1 ≠ [] then p else (a, s)) = (a, s)
            by_cases hcond : p.2 > (a, s).2 ∧ pyStrip p.1 ≠ []
            · exact absurd (h c (List.mem_cons_self _ _) p.1 p.2 (by rw [hb]) hcond.2)
                (not_le.mpr hcond.1)
            · exact if_neg hcond
        | error e => rfl
      rw [hstep]
      exact ih fun c' hc' => h c' (List.mem_cons_of_mem _ hc')

theorem foldl_answerStep_lt {qb : Str → Except PyExc (Str × ℚ)} {s : ℚ} :
    ∀ {cs : List Str} {b : Str × ℚ}, b.2 < s →
      (∀ c ∈ cs, ∀ a' t, qb c = .ok (a', t) → pyStrip a' ≠ [] → t < s) →
      (cs.foldl (answerStep qb) b).2 < s := by
  intro cs
  induction cs with
  | nil => intro b hb _; exact hb
  | cons c cs ih =>
      intro b hb h
      rw [List.foldl_cons]
      refine ih ?_ fun c' hc' => h c' (List.mem_cons_of_mem _ hc')
      rw [answerStep]
      cases hq : qb c with
      | ok p =>
          show (if p.2 > b.2 ∧ pyStrip p.1 ≠ [] then p else b).2 < s
          by_cases hcond : p.2 > b.2 ∧ pyStrip p.1 ≠ []
          · rw [if_pos hcond]
            exact h c (List.mem_cons_self _ _) p.1 p.2 (by rw [hq]) hcond.2
          · rw [if_neg hcond]; exact hb
      | error e => exact hb

theorem foldl_answerStep_empty_answers {qb : Str → Except PyExc (Str × ℚ)} :
    ∀ {cs : List Str} {b : Str × ℚ},
      (∀ c ∈ cs, ∀ a' t, qb c = .ok (a', t) → pyStrip a' = []) →
      cs.foldl (answerStep qb) b = b := by
  intro cs
  induction cs with
  | nil => intro b _; rfl
  | cons c cs ih =>
      intro b h
      rw [List.foldl_cons]
      have hstep : answerStep qb b c = b := by
        rw [answerStep]
        cases hq : qb c with
        | ok p =>
            show (if p.2 > b.2 ∧ pyStrip p.1 ≠ [] then p else b) = b
            by_cases hcond : p.2 > b.2 ∧ pyStrip p.1 ≠ []
            · exact absurd (h c (List.mem_cons_self _ _) p.1 p.2 (by rw [hq])) hcond.2
            · exact if_neg hcond
        | error e => rfl
      rw [hstep]
      exact ih fun c' hc' => h c' (List.mem_cons_of_mem _ hc')

theorem bestFold_first_max {qb : Str → Except PyExc (Str × ℚ)}
    {pre post : List Str} {c0 a : Str} {s : ℚ}
    (hc0 : qb c0 = .ok (a, s)) (ha : pyStrip a ≠ []) (hs : 0 < s)
    (hpre : ∀ c ∈ pre, ∀ a' t, qb c = .ok (a', t) → pyStrip a' ≠ [] → t < s)
    (hpost : ∀ c ∈ post, ∀ a' t, qb c = .ok (a', t) → pyStrip a' ≠ [] → t ≤ s) :
    bestFold qb (pre ++ c0 :: post) = (a, s) := by
  rw [bestFold, List.foldl_append, List.foldl_cons]
  have h1 : (List.foldl (answerStep qb) ([], 0) pre).2 < s :=
    foldl_answerStep_lt (by simpa using hs) hpre
  have h2 : answerStep qb (List.foldl (answerStep qb) ([], 0) pre) c0 = (a, s) := by
    rw [answerStep, hc0]
    exact if_pos ⟨h1, ha⟩
  rw [h2]
  exact foldl_answerStep_keep hpost

/-! ### The aggregators in terms of the pure folds -/

theorem answer_question_eq_fold (tokenize : Str → Except PyExc (List Str))
    (qaRaw : Str → Str → Except PyExc (Str × ℚ)) (fmtConf : ℚ → Str)
    (text question : Str) (htext : text ≠ []) (hq : pyStrip question ≠ [])
    (hchunks : split_text tokenize text 1000 100 ≠ []) :
    answer_question tokenize qaRaw fmtConf text question =
      (if (bestFold (answerFromContext qaRaw question)
            (split_text tokenize text 1000 100)).1 = []
       then msgNoAnswer
       else (bestFold (answerFromContext qaRaw question)
              (split_text tokenize text 1000 100)).1 ++ msgConfOpen ++
            fmtConf (bestFold (answerFromContext qaRaw question)
              (split_text tokenize text 1000 100)).2 ++ [')']) := by
  rw [answer_question, if_neg htext, if_neg hq, answerBody, if_neg hchunks,
    answersLoop_eq, bestFold]
  generalize List.foldl (answerStep (answerFromContext qaRaw question)) ([], 0)
    (split_text tokenize text 1000 100) = B
  obtain ⟨b1, b2⟩ := B
  by_cases hb : b1 = []
  · rw [hb]; rfl
  · rw [if_neg hb]
    show (match (if (b1, b2).1 = [] then (Except.ok msgNoAnswer : Except PyExc Str)
        else Except.ok ((b1, b2).1 ++ msgConfOpen ++ fmtConf (b1, b2).2 ++ [')'])) with
      | Except.ok r => r
      | Except.error _ => msgQAError) =
      (b1, b2).1 ++ msgConfOpen ++ fmtConf (b1, b2).2 ++ [')']
    rw [if_neg hb]

theorem generate_summary_eq (tokenize : Str → Except PyExc (List Str))
    (backend : Str → Except PyExc Str) (st : AssistantState)
    (htext : st.pdf_text ≠ [])
    (hchunks : split_text tokenize st.pdf_text 500 50 ≠ []) :
    generate_summary tokenize backend st =
      (if pureSummaries backend (split_text tokenize st.pdf_text 500 50) = []
       then (msgCouldNotSummarize, st)
       else (List.intercalate [' '] (pureSummaries backend (split_text tokenize st.pdf_text 500 50)),
            { st with summary := (List.intercalate [' '] (pureSummaries backend (split_text tokenize st.pdf_text 500 50))) })) := by
  rw [generate_summary, if_neg htext, generateSummaryBody, if_neg hchunks,
    summariesLoop_eq, List.nil_append]
  generalize pureSummaries backend (split_text tokenize st.pdf_text 500 50) = P
  by_cases hp : P = []
  · rw [hp]; rfl
  · rw [if_neg hp]
    show (match (if P = []
        then (Except.ok (msgCouldNotSummarize, st) : Except PyExc (Str × AssistantState))
        else Except.ok (List.intercalate [' '] P,
          { st with summary := (List.intercalate [' '] P) })) with
      | Except.ok r => r
      | Except.error _ => (msgSummaryError, st)) =
      (List.intercalate [' '] P, { st with summary := (List.intercalate [' '] P) })
    rw [if_neg hp]

/-! ### Claim C7 -/

/-- Claim C7: `answer_question` checks its document-level preconditions
before any chunking work: with no document loaded it returns the
"Please load a PDF first." message, and (with a document loaded) an empty or
whitespace-only question yields "Please enter a valid question.".  Both
results are plain returned strings, independent of the tokenizer and of the
QA backend — no chunk is ever processed and no exception escapes. -/
theorem answer_question_preconditions :
    (∀ (tokenize : Str → Except PyExc (List Str))
        (qaRaw : Str → Str → Except PyExc (Str × ℚ)) (fmtConf : ℚ → Str)
        (question : Str),
      answer_question tokenize qaRaw fmtConf [] question = msgLoadFirst) ∧
    (∀ (tokenize : Str → Except PyExc (List Str))
        (qaRaw : Str → Str → Except PyExc (Str × ℚ)) (fmtConf : ℚ → Str)
        (text question : Str), text ≠ [] → pyStrip question = [] →
      answer_question tokenize qaRaw fmtConf text question = msgValidQuestion) := by
  constructor
  · intro tokenize qaRaw fmtConf question
    rw [answer_question, if_pos rfl]
  · intro tokenize qaRaw fmtConf text question htext hq
    rw [answer_question, if_neg htext, if_pos hq]

/-- Witness for C7 at concrete inputs: no document loaded, and a loaded
document with a whitespace-only question. -/
theorem answer_question_preconditions_witness :
    answer_question (tokOf []) qaRawZero fmt0 [] ['q'] = msgLoadFirst ∧
    answer_question (tokOf []) qaRawZero fmt0 ['x'] [' '] = msgValidQuestion :=
  ⟨answer_question_preconditions.1 (tokOf []) qaRawZero fmt0 ['q'],
   answer_question_preconditions.2 (tokOf []) qaRawZero fmt0 ['x'] [' ']
     (by decide) (by decide)⟩

/-! ### Claim C4 -/

/-- Claim C4: every per-chunk failure (timeout or backend exception) is
caught inside the loop iteration and converted into a skipped chunk, and the
loops carry on with the remaining chunks: for every backend the summarisation
loop returns exactly the successful summaries (`pureSummaries`) and the
answer loop returns exactly the pure best-answer fold — both as `.ok`,
never as an exception — and consequently the bodies of both aggregators
always produce an `.ok` result, so no per-chunk failure can propagate past
the aggregator or abort the document's processing. -/
theorem per_chunk_failures_isolated :
    ∀ (sb : Str → Except PyExc Str) (qaRaw : Str → Str → Except PyExc (Str × ℚ))
      (tokenize : Str → Except PyExc (List Str)) (fmtConf : ℚ → Str)
      (st : AssistantState) (text question : Str) (cs csq : List Str),
      summariesLoop sb cs [] = .ok (pureSummaries sb cs) ∧
      answersLoop (answerFromContext qaRaw question) csq ([], 0) =
        .ok (bestFold (answerFromContext qaRaw question) csq) ∧
      (∃ r, generateSummaryBody tokenize sb st = .ok r) ∧
      (∃ r, answerBody tokenize qaRaw fmtConf text question = .ok r) := by
  intro sb qaRaw tokenize fmtConf st text question cs csq
  refine ⟨?_, ?_, ?_, ?_⟩
  · rw [summariesLoop_eq, List.nil_append]
  · exact answersLoop_eq _ _ _
  · rw [generateSummaryBody]
    by_cases h : split_text tokenize st.pdf_text 500 50 = []
    · rw [if_pos h]; exact ⟨_, rfl⟩
    · rw [if_neg h, summariesLoop_eq, List.nil_append]
      by_cases hp : pureSummaries sb (split_text tokenize st.pdf_text 500 50) = []
      · rw [hp]; exact ⟨_, rfl⟩
      · refine ⟨(List.intercalate [' '] (pureSummaries sb (split_text tokenize st.pdf_text 500 50)),
          { st with summary := (List.intercalate [' '] (pureSummaries sb (split_text tokenize st.pdf_text 500 50))) }), ?_⟩
        show (if pureSummaries sb (split_text tokenize st.pdf_text 500 50) = []
            then (Except.ok (msgCouldNotSummarize, st) : Except PyExc (Str × AssistantState))
            else Except.ok (List.intercalate [' '] (pureSummaries sb (split_text tokenize st.pdf_text 500 50)),
              { st with summary := (List.intercalate [' '] (pureSummaries sb (split_text tokenize st.pdf_text 500 50))) })) =
          Except.ok (List.intercalate [' '] (pureSummaries sb (split_text tokenize st.pdf_text 500 50)),
            { st with summary := (List.intercalate [' '] (pureSummaries sb (split_text tokenize st.pdf_text 500 50))) })
        rw [if_neg hp]
  · rw [answerBody]
    by_cases h : split_text tokenize text 1000 100 = []
    · rw [if_pos h]; exact ⟨_, rfl⟩
    · rw [if_neg h, answersLoop_eq]
      generalize List.foldl (answerStep (answerFromContext qaRaw question)) ([], 0)
        (split_text tokenize text 1000 100) = B
      obtain ⟨b1, b2⟩ := B
      by_cases hb : b1 = []
      · rw [hb]; exact ⟨_, rfl⟩
      · refine ⟨(b1, b2).1 ++ msgConfOpen ++ fmtConf (b1, b2).2 ++ [')'], ?_⟩
        show (if (b1, b2).1 = [] then (Except.ok msgNoAnswer : Except PyExc Str)
            else Except.ok ((b1, b2).1 ++ msgConfOpen ++ fmtConf (b1, b2).2 ++ [')'])) =
          Except.ok ((b1, b2).1 ++ msgConfOpen ++ fmtConf (b1, b2).2 ++ [')'])
        rw [if_neg hb]

/-! ### Claim C6 -/

/-- Claim C6: for a loaded document that chunks into a non-empty sequence,
`generate_summary` collects exactly the successful summaries of the chunks
of length at least 100 (`pureSummaries`, in chunk order); if that collection
is empty it returns the "Could not generate a summary..." sentinel and the
state is unchanged, otherwise it returns the collected summaries joined with
a single space and persists that joined string as the new `summary` field. -/
theorem generate_summary_join_and_persist
    (tokenize : Str → Except PyExc (List Str)) (sb : Str → Except PyExc Str)
    (st : AssistantState) (htext : st.pdf_text ≠ [])
    (hchunks : split_text tokenize st.pdf_text 500 50 ≠ []) :
    (pureSummaries sb (split_text tokenize st.pdf_text 500 50) = [] →
      generate_summary tokenize sb st = (msgCouldNotSummarize, st)) ∧
    (pureSummaries sb (split_text tokenize st.pdf_text 500 50) ≠ [] →
      generate_summary tokenize sb st =
        (List.intercalate [' '] (pureSummaries sb (split_text tokenize st.pdf_text 500 50)),
         { st with summary := (List.intercalate [' '] (pureSummaries sb (split_text tokenize st.pdf_text 500 50))) })) := by
  rw [generate_summary_eq tokenize sb st htext hchunks]
  constructor
  · intro h; rw [if_pos h]
  · intro h; rw [if_neg h]

/-! ### Claim C10 -/

/-- Claim C10: `generate_summary` writes to the persisted `summary` field
only on its success path.  For every tokenizer, backend and starting state,
either the returned state is exactly the starting state (no document, empty
chunk sequence, all chunks skipped or failed, or an internal error), or the
call succeeded: the returned state only replaces `summary` with the returned
joined string, which equals the space-join of the collected summaries. -/
theorem summary_mutated_only_on_success :
    ∀ (tokenize : Str → Except PyExc (List Str)) (sb : Str → Except PyExc Str)
      (st : AssistantState),
      (generate_summary tokenize sb st).2 = st ∨
      ((generate_summary tokenize sb st).2 =
          { st with summary := ((generate_summary tokenize sb st).1) } ∧
        st.pdf_text ≠ [] ∧ split_text tokenize st.pdf_text 500 50 ≠ [] ∧
        pureSummaries sb (split_text tokenize st.pdf_text 500 50) ≠ [] ∧
        (generate_summary tokenize sb st).1 =
          List.intercalate [' '] (pureSummaries sb (split_text tokenize st.pdf_text 500 50))) := by
  intro tokenize sb st
  by_cases htext : st.pdf_text = []
  · left; rw [generate_summary, if_pos htext]
  · by_cases hchunks : split_text tokenize st.pdf_text 500 50 = []
    · left
      rw [generate_summary, if_neg htext, generateSummaryBody, if_pos hchunks]
    · rw [generate_summary_eq tokenize sb st htext hchunks]
      by_cases hp : pureSummaries sb (split_text tokenize st.pdf_text 500 50) = []
      · left; rw [if_pos hp]
      · right
        rw [if_neg hp]
        exact ⟨rfl, htext, hchunks, hp, rfl⟩

/-! ### Claim C9 -/

/-- Claim C9: if every successful chunk outcome carries normalised
confidence exactly 0, `answer_question` returns the "no answer found"
sentinel even when the answers are non-empty: the running best starts at
score 0 and is only replaced on a strictly greater score, so a score-0
answer can never win. -/
theorem zero_scores_no_answer (tokenize : Str → Except PyExc (List Str))
    (qaRaw : Str → Str → Except PyExc (Str × ℚ)) (fmtConf : ℚ → Str)
    (text question : Str) (htext : text ≠ []) (hq : pyStrip question ≠ [])
    (hchunks : split_text tokenize text 1000 100 ≠ [])
    (hzero : ∀ c ∈ split_text tokenize text 1000 100, ∀ a t,
      answerFromContext qaRaw question c = .ok (a, t) → t = 0) :
    answer_question tokenize qaRaw fmtConf text question = msgNoAnswer := by
  rw [answer_question_eq_fold tokenize qaRaw fmtConf text question htext hq hchunks]
  have hfold : bestFold (answerFromContext qaRaw question)
      (split_text tokenize text 1000 100) = ([], 0) :=
    foldl_answerStep_keep fun c hc a' t h _ => le_of_eq (hzero c hc a' t h)
  rw [hfold]
  rfl

/-! ### Claim C8 -/

/-- Claim C8 as stated is false: on a whitespace-only (non-empty) document
the chunker does return the empty chunk sequence, but the aggregators do not
return the "load a PDF first" signal — they return their
"Unable to extract meaningful text..." messages, which differ from
"Please load a PDF first.". -/
theorem whitespace_doc_counterexample :
    generate_summary (tokOf []) (sbOf (Except.ok [])) ⟨[' '], []⟩ =
      (msgNoMeaningful, ⟨[' '], []⟩) ∧
    answer_question (tokOf []) qaRawZero fmt0 [' '] ['q'] = msgNoMeaningfulQA ∧
    msgNoMeaningful ≠ msgLoadFirst ∧ msgNoMeaningfulQA ≠ msgLoadFirst := by
  decide

/-- Claim C8 (amended): an empty or whitespace-only document always yields
the empty chunk sequence, and both aggregators short-circuit before any chunk
processing — with the "Please load a PDF first." message when the document
text is empty, and with their "Unable to extract meaningful text..."
messages when the text is non-empty whitespace. -/
theorem whitespace_doc_shortcircuit_amended
    (tokenize : Str → Except PyExc (List Str))
    (qaRaw : Str → Str → Except PyExc (Str × ℚ)) (sb : Str → Except PyExc Str)
    (fmtConf : ℚ → Str) (text question s0 : Str)
    (hws : text = [] ∨ text.all isPySpace = true) :
    (∀ maxLength overlap, split_text tokenize text maxLength overlap = []) ∧
    (text = [] → generate_summary tokenize sb ⟨text, s0⟩ = (msgLoadFirst, ⟨text, s0⟩)) ∧
    (text = [] → answer_question tokenize qaRaw fmtConf text question = msgLoadFirst) ∧
    (text ≠ [] → generate_summary tokenize sb ⟨text, s0⟩ = (msgNoMeaningful, ⟨text, s0⟩)) ∧
    (text ≠ [] → pyStrip question ≠ [] →
      answer_question tokenize qaRaw fmtConf text question = msgNoMeaningfulQA) := by
  have hsplit : ∀ maxLength overlap, split_text tokenize text maxLength overlap = [] := by
    intro m o
    rw [split_text]
    rcases hws with h | hall
    · rw [if_pos (Or.inl h)]
    · by_cases hnil : text = []
      · rw [if_pos (Or.inl hnil)]
      · have hne : text.isEmpty = false := by
          cases text with
          | nil => exact absurd rfl hnil
          | cons a l => rfl
        have : pyIsSpace text = true := by rw [pyIsSpace, hne, hall]; rfl
        rw [if_pos (Or.inr this)]
  refine ⟨hsplit, ?_, ?_, ?_, ?_⟩
  · intro h; subst h
    rw [generate_summary, if_pos rfl]
  · intro h; subst h
    rw [answer_question, if_pos rfl]
  · intro hne
    rw [generate_summary, if_neg hne, generateSummaryBody, if_pos (hsplit 500 50)]
  · intro hne hq
    rw [answer_question, if_neg hne, if_neg hq, answerBody, if_pos (hsplit 1000 100)]

/-- Witness for the amended C8 at the concrete whitespace-only document
consisting of a single space. -/
theorem whitespace_doc_shortcircuit_amended_witness :
    (∀ maxLength overlap, split_text (tokOf []) [' '] maxLength overlap = []) ∧
    ([' '] = [] → generate_summary (tokOf []) (sbOf (Except.ok [])) ⟨[' '], []⟩ =
      (msgLoadFirst, ⟨[' '], []⟩)) ∧
    ([' '] = [] → answer_question (tokOf []) qaRawZero fmt0 [' '] ['q'] = msgLoadFirst) ∧
    ([' '] ≠ [] → generate_summary (tokOf []) (sbOf (Except.ok [])) ⟨[' '], []⟩ =
      (msgNoMeaningful, ⟨[' '], []⟩)) ∧
    ([' '] ≠ [] → pyStrip ['q'] ≠ [] →
      answer_question (tokOf []) qaRawZero fmt0 [' '] ['q'] = msgNoMeaningfulQA) :=
  whitespace_doc_shortcircuit_amended (tokOf []) qaRawZero (sbOf (Except.ok []))
    fmt0 [' '] ['q'] [] (Or.inr (by decide))

/-! ### Claim C1 -/

/-- Claim C1: for a loaded document and a non-blank question,
`answer_question` returns the answer of the chunk with the strictly highest
normalised confidence among chunks whose answer is non-empty after trimming,
rendered with its confidence; ties favour the earlier chunk (the best pair
starts at `("", 0)` and is replaced only on a strictly greater score with a
non-empty trimmed answer).  The first conjunct states this for the chunk at
an arbitrary position (strictly better than every qualifying chunk before
it, at least as good as every qualifying chunk after it); the second states
that when every successful answer is empty after trimming the "no answer
found" sentinel is returned regardless of the scores. -/
theorem answer_question_best_selection :
    (∀ (tokenize : Str → Except PyExc (List Str))
        (qaRaw : Str → Str → Except PyExc (Str × ℚ)) (fmtConf : ℚ → Str)
        (text question : Str) (pre post : List Str) (c0 a : Str) (s : ℚ),
      text ≠ [] → pyStrip question ≠ [] →
      split_text tokenize text 1000 100 = pre ++ c0 :: post →
      answerFromContext qaRaw question c0 = .ok (a, s) →
      pyStrip a ≠ [] → 0 < s →
      (∀ c ∈ pre, ∀ a' t, answerFromContext qaRaw question c = .ok (a', t) →
        pyStrip a' ≠ [] → t < s) →
      (∀ c ∈ post, ∀ a' t, answerFromContext qaRaw question c = .ok (a', t) →
        pyStrip a' ≠ [] → t ≤ s) →
      answer_question tokenize qaRaw fmtConf text question =
        a ++ msgConfOpen ++ fmtConf s ++ [')']) ∧
    (∀ (tokenize : Str → Except PyExc (List Str))
        (qaRaw : Str → Str → Except PyExc (Str × ℚ)) (fmtConf : ℚ → Str)
        (text question : Str),
      text ≠ [] → pyStrip question ≠ [] →
      split_text tokenize text 1000 100 ≠ [] →
      (∀ c ∈ split_text tokenize text 1000 100, ∀ a' t,
        answerFromContext qaRaw question c = .ok (a', t) → pyStrip a' = []) →
      answer_question tokenize qaRaw fmtConf text question = msgNoAnswer) := by
  constructor
  · intro tokenize qaRaw fmtConf text question pre post c0 a s htext hq hsplit hc0
      ha hs hpre hpost
    have hchunks : split_text tokenize text 1000 100 ≠ [] := by
      rw [hsplit]; simp
    rw [answer_question_eq_fold tokenize qaRaw fmtConf text question htext hq hchunks,
      hsplit]
    have hfold : bestFold (answerFromContext qaRaw question) (pre ++ c0 :: post) =
        (a, s) := bestFold_first_max hc0 ha hs hpre hpost
    rw [hfold]
    have hane : ¬((a, s).1 = []) := fun h => ha (by rw [show a = [] from h]; rfl)
    rw [if_neg hane]
  · intro tokenize qaRaw fmtConf text question htext hq hchunks hempty
    rw [answer_question_eq_fold tokenize qaRaw fmtConf text question htext hq hchunks]
    have hfold : bestFold (answerFromContext qaRaw question)
        (split_text tokenize text 1000 100) = ([], 0) :=
      foldl_answerStep_empty_answers hempty
    rw [hfold]
    rfl

set_option maxRecDepth 1000000 in
/-- Witness for C1 at the concrete three-chunk scenario: the chunks carry
normalised confidences 0.3, 0.9 and 0.5 with non-empty answers, and the
answer of the 0.9 chunk (in the middle) is returned; and with all-empty
answers the "no answer found" sentinel is returned despite a high score. -/
theorem answer_question_best_selection_witness :
    answer_question (tokOf sentsC1) qaRawC1 fmt0 ['x'] ['q'] =
      "middle answer".toList ++ msgConfOpen ++ fmt0 (normalizeConf 9) ++ [')'] ∧
    answer_question (tokOf sentsC1) qaRawEmpty fmt0 ['x'] ['q'] = msgNoAnswer := by
  constructor
  · refine answer_question_best_selection.1 (tokOf sentsC1) qaRawC1 fmt0 ['x'] ['q']
      [chunkA] [chunkC] chunkB ("middle answer".toList) (normalizeConf 9)
      (by decide) (by decide) (by decide) (by rfl) (by decide)
      (by norm_num [normalizeConf, min_def, max_def]) ?_ ?_
    · intro c hc a' t h hstrip
      simp only [List.mem_singleton] at hc
      subst hc
      have he : answerFromContext qaRawC1 ['q'] chunkA =
          Except.ok ("first answer".toList, normalizeConf 3) := by rfl
      rw [he] at h
      injection h with h1
      have ht : normalizeConf 3 = t := congrArg Prod.snd h1
      rw [← ht]
      norm_num [normalizeConf, min_def, max_def]
    · intro c hc a' t h hstrip
      simp only [List.mem_singleton] at hc
      subst hc
      have he : answerFromContext qaRawC1 ['q'] chunkC =
          Except.ok ("last answer".toList, normalizeConf 5) := by rfl
      rw [he] at h
      injection h with h1
      have ht : normalizeConf 5 = t := congrArg Prod.snd h1
      rw [← ht]
      norm_num [normalizeConf, min_def, max_def]
  · refine answer_question_best_selection.2 (tokOf sentsC1) qaRawEmpty fmt0 ['x'] ['q']
      (by decide) (by decide) (by decide) ?_
    intro c hc a' t h
    have he : answerFromContext qaRawEmpty ['q'] c =
        Except.ok ([], normalizeConf 50) := rfl
    rw [he] at h
    injection h with h1
    have ha' : ([] : Str) = a' := congrArg Prod.fst h1
    rw [← ha']
    rfl

/-- Witness for C9 at a concrete input: a one-chunk document whose QA backend
returns a non-empty answer with raw score 0 (normalised confidence 0). -/
theorem zero_scores_no_answer_witness :
    answer_question (tokOf ["hello world sample text".toList]) qaRawZero fmt0
      ['x'] ['q'] = msgNoAnswer := by
  refine zero_scores_no_answer (tokOf ["hello world sample text".toList]) qaRawZero
    fmt0 ['x'] ['q'] (by decide) (by decide) (by decide) ?_
  intro c hc a t h
  have he : answerFromContext qaRawZero ['q'] c =
      Except.ok ("an answer".toList, normalizeConf 0) := rfl
  rw [he] at h
  injection h with h1
  have ht : normalizeConf 0 = t := congrArg Prod.snd h1
  rw [← ht]
  norm_num [normalizeConf, min_def, max_def]

set_option maxRecDepth 10000 in
/-- Witness for C6 at a concrete input: a 150-character single-chunk document
summarised successfully persists the joined summary, and the same document
with a failing backend returns the sentinel and leaves the old summary. -/
theorem generate_summary_join_and_persist_witness :
    generate_summary (tokOf [List.replicate 150 'x'])
        (sbOf (Except.ok ("short summary".toList)))
        ⟨List.replicate 150 'x', "old".toList⟩ =
      ("short summary".toList, ⟨List.replicate 150 'x', "short summary".toList⟩) ∧
    generate_summary (tokOf [List.replicate 150 'x'])
        (sbOf (Except.error PyExc.otherExc))
        ⟨List.replicate 150 'x', "old".toList⟩ =
      (msgCouldNotSummarize, ⟨List.replicate 150 'x', "old".toList⟩) := by
  constructor
  · have h := (generate_summary_join_and_persist (tokOf [List.replicate 150 'x'])
      (sbOf (Except.ok ("short summary".toList)))
      ⟨List.replicate 150 'x', "old".toList⟩ (by decide) (by decide)).2 (by decide)
    rw [h]
    decide
  · exact (generate_summary_join_and_persist (tokOf [List.replicate 150 'x'])
      (sbOf (Except.error PyExc.otherExc))
      ⟨List.replicate 150 'x', "old".toList⟩ (by decide) (by decide)).1 (by decide)
